import Mathlib

/-!
# pySierraECG: the marshalling and lifecycle layer of `src/pySierraECG.c`

A shallow embedding of `getList`, `getData`, `checkFile` and
`PySierraECG_getLeads`, and theorems about them.

Modelling conventions.

* `size_t` values are natural numbers, the C `int` loop counters are natural
  numbers too: they start at `0` and only grow, and an increment past
  `INT_MAX` is the outcome `UB.signedOverflow` (signed overflow is undefined
  in C), so a counter never holds a negative value and its conversion to
  `size_t` in the loop test `i < length` leaves it unchanged.
* An array read outside the array is the outcome `UB.outOfBounds`.
* `PyList_New` is given a list of any length; a length that `Py_ssize_t` cannot
  hold exceeds `INT_MAX`, and every loop over such a length ends in one of the
  two outcomes above.
* A `double` is represented by the rational number it denotes; the only
  doubles built here come from a `short`, a conversion that is exact.
* Python objects are values (`PyObject`), `PyObject.null` is the `NULL` pointer.
* Memory allocation (`malloc`, `PyList_New`, `PyFloat_FromDouble`,
  `Py_BuildValue`) is assumed to succeed.
* A `size_t` passed to `Py_BuildValue` under the format code `i` is read back as a
  C `int`: the low 32 bits of the argument, signed (`BuildValue_i`).
* A local variable that was never assigned holds `Local.indeterminate`.
* The external library and the file system are an `Env`: the answers they give
  during one call. The calls the function makes are recorded in a trace.
-/

namespace PySierraECG

/-! ## Python values -/

/-- A `PyObject *`: `NULL`, or one of the objects this module builds. -/
inductive PyObject where
  | null
  | float (v : Rat)
  | long (v : Int)
  | unicode (s : String)
  | list (items : List PyObject)
  | dict (entries : List (String × PyObject))

/-- The exception pending in the interpreter (the error indicator). -/
inductive PyErr where
  /-- The module exception `PySierraECG.error`, set by `PyErr_SetString(Error, msg)`. -/
  | Error (msg : String)
  /-- The exception `PyArg_ParseTuple` sets when the arguments do not match. -/
  | argument
  deriving DecidableEq, Repr

/-- Undefined behaviour an execution can run into. -/
inductive UB where
  | outOfBounds
  | signedOverflow
  deriving DecidableEq, Repr

/-- Largest value of a C `int` (32 bits). -/
def INT_MAX : Nat := 2147483647

/-- `PyList_New(len)`: a list of `len` slots, all `NULL`. -/
def PyList_New (len : Nat) : List PyObject :=
  List.replicate len PyObject.null

/-- `PyList_SetItem(list, i, item)`: stores `item` in slot `i`; outside the list
nothing is stored (the call fails and the code ignores its status). -/
def PyList_SetItem (list : List PyObject) (i : Nat) (item : PyObject) : List PyObject :=
  list.set i item

/-- `PyFloat_FromDouble(array[i])` with `array[i]` a `short`: the implicit
conversion `short → double` is exact, the float holds the same number. -/
def PyFloat_FromDouble (s : Int) : PyObject :=
  PyObject.float (s : Rat)

/-- What `Py_BuildValue` reads for the format code `i` when the argument passed
is a `size_t`: a C `int`, that is the low 32 bits of the argument as a signed
number. -/
def BuildValue_i (arg : Nat) : Int :=
  if arg % 4294967296 < 2147483648 then ((arg % 4294967296 : Nat) : Int)
  else ((arg % 4294967296 : Nat) : Int) - 4294967296

/-- `Py_BuildValue` with format `"{s:s, s:i, s:i, s:O}"`: a dictionary of four
entries, in the order of the arguments. -/
def Py_BuildValue (k1 : String) (name : String) (k2 : String) (count : Nat)
    (k3 : String) (duration : Nat) (k4 : String) (data : PyObject) : PyObject :=
  PyObject.dict [(k1, PyObject.unicode name), (k2, PyObject.long (BuildValue_i count)),
    (k3, PyObject.long (BuildValue_i duration)), (k4, data)]

/-- Lookup of a key in a dictionary object (`d[key]` in Python). -/
def PyObject.getItem (key : String) : PyObject → Option PyObject
  | PyObject.dict entries => (entries.find? (fun e => e.1 == key)).map Prod.snd
  | _ => none

/-! ## The native result (`libsierraecg/sierraecg.h`, as documented in the
comments of `PySierraECG_getLeads`) -/

/-- Capacity of `ecg.leads` (`lead_t[16]`). -/
def MAX_LEADS : Nat := 16

/-- Record `lead_t`: `name (char*)`, `samples (short[])`, `count (size_t)`,
`duration (size_t)`. `samples` is the array the pointer points to. -/
structure lead_t where
  name : String
  samples : List Int
  count : Nat
  duration : Nat
  deriving DecidableEq, Repr

/-- Record `ecg_t`: `version (char[8])`, `leads (lead_t[16])`, `valid (size_t)`. -/
structure ecg_t where
  version : String
  leads : List lead_t
  valid : Nat
  deriving DecidableEq, Repr

/-! ## The transcoder: `getList` and `getData` -/

/-- The loop of `getList`, from counter value `i` and list contents `list`:
`for (int i = 0; i < length; ++i) PyList_SetItem(list, i, PyFloat_FromDouble(array[i]));`
Returns the final list and the final value of the counter. -/
def getListLoop (length : Nat) (array : List Int) (i : Nat) (list : List PyObject) :
    Except UB (List PyObject × Nat) :=
  if i < length then
    match array[i]? with
    | none => Except.error UB.outOfBounds
    | some s =>
      if i + 1 ≤ INT_MAX then
        getListLoop length array (i + 1) (PyList_SetItem list i (PyFloat_FromDouble s))
      else Except.error UB.signedOverflow
  else Except.ok (list, i)
termination_by length - i
decreasing_by omega

/-- Function `getList(length, array)`. -/
def getList (length : Nat) (array : List Int) : Except UB PyObject :=
  match getListLoop length array 0 (PyList_New length) with
  | Except.error e => Except.error e
  | Except.ok (list, _) => Except.ok (PyObject.list list)

/-- The loop of `getData`, from counter value `i` and list contents `result`.
Returns the final list and the final value of the counter. -/
def getDataLoop (nleads : Nat) (leads : List lead_t) (i : Nat) (result : List PyObject) :
    Except UB (List PyObject × Nat) :=
  if i < nleads then
    match leads[i]? with
    | none => Except.error UB.outOfBounds
    | some l =>
      match getList l.count l.samples with
      | Except.error e => Except.error e
      | Except.ok data =>
        if i + 1 ≤ INT_MAX then
          getDataLoop nleads leads (i + 1)
            (PyList_SetItem result i
              (Py_BuildValue "name" l.name "nsamples" l.count "duration" l.duration "data" data))
        else Except.error UB.signedOverflow
  else Except.ok (result, i)
termination_by nleads - i
decreasing_by omega

/-- Function `getData(nleads, leads)`. -/
def getData (nleads : Nat) (leads : List lead_t) : Except UB PyObject :=
  match getDataLoop nleads leads 0 (PyList_New nleads) with
  | Except.error e => Except.error e
  | Except.ok (result, _) => Except.ok (PyObject.list result)

/-! ## The world around one call -/

/-- The answers of the file system and of libsierraecg during one call. -/
structure Env where
  /-- Status of `access(path, F_OK)`: `-1` when the path does not exist. -/
  access : String → Int
  /-- Status of `sierraecg_init()`. -/
  sierraecg_init : Int
  /-- Status of `sierraecg_read(path, &ecg)` and the contents of `ecg` after it. -/
  sierraecg_read : String → Int × ecg_t

/-- The calls of `PySierraECG_getLeads` that are visible from outside, and the
call of the transcoder. -/
inductive Call where
  | access (path : String)
  | PyErr_SetString (msg : String)
  | sierraecg_init
  | abort
  | sierraecg_read (path : String)
  | getData
  | sierraecg_free
  | sierraecg_cleanup
  deriving DecidableEq, Repr

/-- Interpreter state: the error indicator and the calls made so far. -/
structure PyState where
  err : Option PyErr
  trace : List Call
  deriving DecidableEq, Repr

/-- Appends a call to the trace. -/
def PyState.call (σ : PyState) (c : Call) : PyState :=
  { σ with trace := σ.trace ++ [c] }

/-- `PyErr_SetString(Error, msg)`. -/
def PyErr_SetString (σ : PyState) (msg : String) : PyState :=
  { err := some (PyErr.Error msg), trace := σ.trace ++ [Call.PyErr_SetString msg] }

/-- Function `concat(s1, s2)`. -/
def concat (s1 s2 : String) : String :=
  s1 ++ s2

/-- `PyArg_ParseTuple(args, "s", &command)`: succeeds on exactly one `str`
argument without an embedded null character. -/
def PyArg_ParseTuple_s (args : List PyObject) : Option String :=
  match args with
  | [PyObject.unicode s] => if s.data.all (fun c => c.val != 0) then some s else none
  | _ => none

/-- Function `checkFile(path)`. -/
def checkFile (env : Env) (path : String) (σ : PyState) : Int × PyState :=
  let σ := σ.call (Call.access path)
  if env.access path ≠ -1 then (1, σ)
  else (0, PyErr_SetString σ (concat "File doesn't exist: " path))

/-- A local variable of automatic storage: not yet assigned, or holding a value. -/
inductive Local (α : Type) where
  | indeterminate
  | value (a : α)

/-- How a call of `PySierraECG_getLeads` ends. -/
inductive Outcome where
  /-- Control is back in the interpreter, with the returned pointer. -/
  | returned (result : Local PyObject)
  /-- The process was terminated by `abort()`. -/
  | aborted
  /-- The execution ran into undefined behaviour inside the transcoder. -/
  | undefined (ub : UB)

/-- Function `PySierraECG_getLeads(self, args)` (the Python `get_leads`). -/
def PySierraECG_getLeads (env : Env) (args : List PyObject) (σ : PyState) : Outcome × PyState :=
  let ECG : Local PyObject := Local.indeterminate
  match PyArg_ParseTuple_s args with
  | none => (Outcome.returned (Local.value PyObject.null), { σ with err := some PyErr.argument })
  | some command =>
    let checked := checkFile env command σ
    let σ := checked.2
    if checked.1 = 0 then (Outcome.returned (Local.value PyObject.null), σ)
    else
      let σ := σ.call Call.sierraecg_init
      if env.sierraecg_init ≠ 0 then (Outcome.aborted, σ.call Call.abort)
      else
        let σ := σ.call (Call.sierraecg_read command)
        let ecg := (env.sierraecg_read command).2
        if (env.sierraecg_read command).1 ≠ 0 then
          let σ := PyErr_SetString σ (concat "Errors parsing Sierra ECG file: " command)
          let σ := σ.call Call.sierraecg_cleanup
          (Outcome.returned ECG, σ)
        else
          let σ := σ.call Call.getData
          match getData ecg.valid ecg.leads with
          | Except.error ub => (Outcome.undefined ub, σ)
          | Except.ok r =>
            let ECG := Local.value r
            let σ := σ.call Call.sierraecg_free
            let σ := σ.call Call.sierraecg_cleanup
            (Outcome.returned ECG, σ)

/-! ## Definitions used in the statements and proofs -/

/-- The list contents when the counter of the `getList` loop holds `i`. -/
def listAt (length : Nat) (array : List Int) (i : Nat) : List PyObject :=
  (array.take i).map PyFloat_FromDouble ++ List.replicate (length - i) PyObject.null

/-- A lead whose sample count lies inside its sample array and fits a C `int`. -/
def leadInBounds (l : lead_t) : Prop :=
  l.count ≤ l.samples.length ∧ l.count ≤ INT_MAX

instance (l : lead_t) : Decidable (leadInBounds l) :=
  inferInstanceAs (Decidable (l.count ≤ l.samples.length ∧ l.count ≤ INT_MAX))

/-- The inputs on which every array read of `getData` and `getList` stays inside
its array and no loop counter overflows. -/
def inBounds (nleads : Nat) (leads : List lead_t) : Prop :=
  nleads ≤ leads.length ∧ nleads ≤ INT_MAX ∧ ∀ l ∈ leads.take nleads, leadInBounds l

instance (nleads : Nat) (leads : List lead_t) : Decidable (inBounds nleads leads) :=
  inferInstanceAs (Decidable (nleads ≤ leads.length ∧ nleads ≤ INT_MAX ∧
    ∀ l ∈ leads.take nleads, leadInBounds l))

/-- The record `getData` stores for a lead whose samples are all read. -/
def recordOf (l : lead_t) : PyObject :=
  Py_BuildValue "name" l.name "nsamples" l.count "duration" l.duration "data"
    (PyObject.list ((l.samples.take l.count).map PyFloat_FromDouble))

/-- The list contents when the counter of the `getData` loop holds `i`. -/
def dataAt (nleads : Nat) (leads : List lead_t) (i : Nat) : List PyObject :=
  (leads.take i).map recordOf ++ List.replicate (nleads - i) PyObject.null

/-- Whether a call is one of the four operations of libsierraecg. -/
def Call.isLibrary : Call → Bool
  | Call.sierraecg_init => true
  | Call.sierraecg_read _ => true
  | Call.sierraecg_free => true
  | Call.sierraecg_cleanup => true
  | _ => false

/-- The library operations among a sequence of calls, in order. -/
def libraryCalls (calls : List Call) : List Call :=
  calls.filter Call.isLibrary

/-- The calls made during one call of `PySierraECG_getLeads` started in state `σ`. -/
def callsMade (env : Env) (args : List PyObject) (σ : PyState) : List Call :=
  (PySierraECG_getLeads env args σ).2.trace.drop σ.trace.length

/-- What the transcoder is meant to look at in a lead: its name, count, duration
and the first `count` samples. -/
def leadView (l : lead_t) : String × Nat × Nat × List Int :=
  (l.name, l.count, l.duration, l.samples.take l.count)

/-! ## Fixtures -/

/-- Lead `I` of a small recording; the array holds one sample more than `count`. -/
def leadI : lead_t := { name := "I", samples := [3, -7, 12, 99], count := 3, duration := 10000 }

/-- Lead `II` of a small recording. -/
def leadII : lead_t := { name := "II", samples := [5, 0], count := 2, duration := 10000 }

/-- An entry of `ecg.leads` past the valid ones. -/
def unusedLead : lead_t := { name := "", samples := [], count := 0, duration := 0 }

/-- A native result with two valid leads out of sixteen entries. -/
def sampleEcg : ecg_t :=
  { version := "1.03", leads := [leadI, leadII] ++ List.replicate 14 unusedLead, valid := 2 }

/-- The same recording with other contents past the valid leads and past `count`. -/
def sampleEcgOther : ecg_t :=
  { version := "1.04",
    leads := [{ leadI with samples := [3, -7, 12, -1, -1] }, leadII] ++ List.replicate 14 leadI,
    valid := 2 }

/-- A native result whose single valid lead lasts `2^31` milliseconds. -/
def longEcg : ecg_t :=
  { version := "1.03",
    leads := [{ name := "I", samples := [1], count := 1, duration := 2147483648 }]
      ++ List.replicate 15 unusedLead,
    valid := 1 }

/-- The interpreter state before the call. -/
def idle : PyState := { err := none, trace := [] }

/-- A world where the file exists and parses to `sampleEcg`. -/
def sampleEnv : Env :=
  { access := fun _ => 0, sierraecg_init := 0, sierraecg_read := fun _ => (0, sampleEcg) }

/-- A world where no file exists. -/
def missingEnv : Env :=
  { access := fun _ => -1, sierraecg_init := 0, sierraecg_read := fun _ => (1, sampleEcg) }

/-- A world where the file exists and the library fails to initialise. -/
def initFailEnv : Env :=
  { access := fun _ => 0, sierraecg_init := 1, sierraecg_read := fun _ => (0, sampleEcg) }

/-- A world where the file exists and is not a Sierra ECG document. -/
def readFailEnv : Env :=
  { access := fun _ => 0, sierraecg_init := 0,
    sierraecg_read := fun _ => (1, { version := "", leads := List.replicate 16 unusedLead, valid := 0 }) }

/-! ## Lemmas on the loops and on the runs of `PySierraECG_getLeads` -/

/-- One iteration of the `getList` loop moves the list from `listAt i` to `listAt (i + 1)`. -/
theorem listAt_step (length : Nat) (array : List Int) (i : Nat) (s : Int)
    (hi : i < length) (hs : array[i]? = some s) :
    PyList_SetItem (listAt length array i) i (PyFloat_FromDouble s) = listAt length array (i + 1) := by
  have hia : i < array.length := by
    rcases Nat.lt_or_ge i array.length with h | h
    · exact h
    · rw [List.getElem?_eq_none h] at hs; cases hs
  have hlen : ((array.take i).map PyFloat_FromDouble).length = i := by
    simp [List.length_take]; omega
  have hrep : List.replicate (length - i) PyObject.null
      = PyObject.null :: List.replicate (length - (i + 1)) PyObject.null := by
    have : length - i = (length - (i + 1)) + 1 := by omega
    rw [this, List.replicate_succ]
  unfold PyList_SetItem listAt
  rw [hrep, List.set_append_right _ _ (by rw [hlen]), hlen, Nat.sub_self, List.set_cons_zero]
  have ht : array.take (i + 1) = array.take i ++ [s] := by
    rw [List.take_succ, hs]; rfl
  rw [ht]; simp

/-- Inside the array and below `INT_MAX`, the `getList` loop ends with every slot filled and its counter at `length`. -/
theorem getListLoop_run (length : Nat) (array : List Int)
    (hlen : length ≤ array.length) (hmax : length ≤ INT_MAX) :
    ∀ (k i : Nat), length - i = k → i ≤ length →
      getListLoop length array i (listAt length array i)
        = Except.ok ((array.take length).map PyFloat_FromDouble, length) := by
  intro k
  induction k with
  | zero =>
    intro i hk hi
    have : i = length := by omega
    subst this
    rw [getListLoop]
    simp [listAt]
  | succ k ih =>
    intro i hk hi
    have hlt : i < length := by omega
    have hia : i < array.length := by omega
    rw [getListLoop]
    simp only [hlt, if_true]
    rw [List.getElem?_eq_getElem hia]
    simp only
    have : i + 1 ≤ INT_MAX := by omega
    simp only [this, if_true]
    rw [listAt_step length array i _ hlt (List.getElem?_eq_getElem hia)]
    exact ih (i + 1) (by omega) (by omega)

/-- A `getList` loop that ends normally had `length` inside the array and inside a C `int`. -/
theorem getListLoop_defined (length : Nat) (array : List Int) :
    ∀ (k i : Nat) (list : List PyObject) (r : List PyObject × Nat), length - i = k → i < length →
      getListLoop length array i list = Except.ok r →
      length ≤ array.length ∧ length ≤ INT_MAX := by
  intro k
  induction k with
  | zero => intro i list r hk hi; omega
  | succ k ih =>
    intro i list r hk hi h
    rw [getListLoop] at h
    simp only [hi, if_true] at h
    cases hs : array[i]? with
    | none => rw [hs] at h; cases h
    | some s =>
      rw [hs] at h
      simp only at h
      have hia : i < array.length := by
        rcases Nat.lt_or_ge i array.length with h1 | h1
        · exact h1
        · rw [List.getElem?_eq_none h1] at hs; cases hs
      by_cases hmax : i + 1 ≤ INT_MAX
      · simp only [hmax, if_true] at h
        by_cases hnext : i + 1 < length
        · exact ih (i + 1) _ r (by omega) hnext h
        · exact ⟨by omega, by omega⟩
      · simp only [hmax, if_false] at h
        cases h

/-- Closed form of `getList` on inputs inside bounds. -/
theorem getList_run (length : Nat) (array : List Int)
    (hlen : length ≤ array.length) (hmax : length ≤ INT_MAX) :
    getList length array = Except.ok (PyObject.list ((array.take length).map PyFloat_FromDouble)) := by
  have h := getListLoop_run length array hlen hmax length 0 (by omega) (by omega)
  have h0 : listAt length array 0 = PyList_New length := by simp [listAt, PyList_New]
  rw [h0] at h
  simp [getList, h]

/-- If `getList` returns, `length` is inside the array and inside a C `int`. -/
theorem getList_defined (length : Nat) (array : List Int) (d : PyObject)
    (h : getList length array = Except.ok d) :
    length ≤ array.length ∧ length ≤ INT_MAX := by
  rcases Nat.eq_zero_or_pos length with h0 | hpos
  · subst h0; exact ⟨by omega, by omega⟩
  · unfold getList at h
    cases hl : getListLoop length array 0 (PyList_New length) with
    | error e => rw [hl] at h; cases h
    | ok r => exact getListLoop_defined length array length 0 _ r (by omega) hpos hl

/-- With all its samples present, a `getList` loop whose bound exceeds `INT_MAX`
increments its counter past `INT_MAX`. -/
theorem getListLoop_overflow (length : Nat) (array : List Int)
    (hlen : length ≤ array.length) (hbig : INT_MAX < length) :
    ∀ (k i : Nat) (list : List PyObject), INT_MAX - i = k → i ≤ INT_MAX →
      getListLoop length array i list = Except.error UB.signedOverflow := by
  intro k
  induction k with
  | zero =>
    intro i list hk hi
    have hlt : i < length := by omega
    have hia : i < array.length := by omega
    have hmax : ¬ i + 1 ≤ INT_MAX := by omega
    rw [getListLoop]
    simp only [hlt, if_true]
    rw [List.getElem?_eq_getElem hia]
    simp only [hmax, if_false]
  | succ k ih =>
    intro i list hk hi
    have hlt : i < length := by omega
    have hia : i < array.length := by omega
    have hmax : i + 1 ≤ INT_MAX := by omega
    rw [getListLoop]
    simp only [hlt, if_true]
    rw [List.getElem?_eq_getElem hia]
    simp only [hmax, if_true]
    exact ih (i + 1) _ (by omega) hmax

/-- Function `getList` on a sample count above `INT_MAX`: the counter overflows. -/
theorem getList_overflow (length : Nat) (array : List Int)
    (hlen : length ≤ array.length) (hbig : INT_MAX < length) :
    getList length array = Except.error UB.signedOverflow := by
  unfold getList
  rw [getListLoop_overflow length array hlen hbig INT_MAX 0 _ (by omega) (by omega)]

/-- One iteration of the `getData` loop moves the list from `dataAt i` to `dataAt (i + 1)`. -/
theorem dataAt_step (nleads : Nat) (leads : List lead_t) (i : Nat) (l : lead_t)
    (hi : i < nleads) (hl : leads[i]? = some l) :
    PyList_SetItem (dataAt nleads leads i) i (recordOf l) = dataAt nleads leads (i + 1) := by
  have hia : i < leads.length := by
    rcases Nat.lt_or_ge i leads.length with h | h
    · exact h
    · rw [List.getElem?_eq_none h] at hl; cases hl
  have hlen : ((leads.take i).map recordOf).length = i := by
    simp [List.length_take]; omega
  have hrep : List.replicate (nleads - i) PyObject.null
      = PyObject.null :: List.replicate (nleads - (i + 1)) PyObject.null := by
    have : nleads - i = (nleads - (i + 1)) + 1 := by omega
    rw [this, List.replicate_succ]
  unfold PyList_SetItem dataAt
  rw [hrep, List.set_append_right _ _ (by rw [hlen]), hlen, Nat.sub_self, List.set_cons_zero]
  have ht : leads.take (i + 1) = leads.take i ++ [l] := by
    rw [List.take_succ, hl]; rfl
  rw [ht]; simp

/-- An entry at an index below `n` belongs to the first `n` entries. -/
theorem mem_take_of_getElem? (leads : List lead_t) (n j : Nat) (l : lead_t)
    (hj : j < n) (hl : leads[j]? = some l) : l ∈ leads.take n := by
  rw [List.mem_iff_getElem?]
  exact ⟨j, by rw [List.getElem?_take_of_lt hj]; exact hl⟩

/-- On inputs inside bounds, the `getData` loop ends with every slot filled and its counter at `nleads`. -/
theorem getDataLoop_run (nleads : Nat) (leads : List lead_t) (hb : inBounds nleads leads) :
    ∀ (k i : Nat), nleads - i = k → i ≤ nleads →
      getDataLoop nleads leads i (dataAt nleads leads i)
        = Except.ok ((leads.take nleads).map recordOf, nleads) := by
  obtain ⟨hlen, hmax, hleads⟩ := hb
  intro k
  induction k with
  | zero =>
    intro i hk hi
    have : i = nleads := by omega
    subst this
    rw [getDataLoop]
    simp [dataAt]
  | succ k ih =>
    intro i hk hi
    have hlt : i < nleads := by omega
    have hia : i < leads.length := by omega
    have hl : leads[i]? = some leads[i] := List.getElem?_eq_getElem hia
    have hin : leadInBounds leads[i] := hleads _ (mem_take_of_getElem? leads nleads i _ hlt hl)
    rw [getDataLoop]
    simp only [hlt, if_true]
    rw [hl]
    simp only
    rw [getList_run _ _ hin.1 hin.2]
    simp only
    have : i + 1 ≤ INT_MAX := by omega
    simp only [this, if_true]
    have hstep := dataAt_step nleads leads i _ hlt hl
    unfold recordOf at hstep
    rw [hstep]
    exact ih (i + 1) (by omega) (by omega)

/-- A `getData` loop that ends normally ran on inputs inside bounds. -/
theorem getDataLoop_defined (nleads : Nat) (leads : List lead_t) :
    ∀ (k i : Nat) (result : List PyObject) (r : List PyObject × Nat), nleads - i = k → i < nleads →
      getDataLoop nleads leads i result = Except.ok r →
      nleads ≤ leads.length ∧ nleads ≤ INT_MAX ∧
        ∀ (j : Nat) (l : lead_t), i ≤ j → j < nleads → leads[j]? = some l → leadInBounds l := by
  intro k
  induction k with
  | zero => intro i result r hk hi; omega
  | succ k ih =>
    intro i result r hk hi h
    rw [getDataLoop] at h
    simp only [hi, if_true] at h
    cases hs : leads[i]? with
    | none => rw [hs] at h; cases h
    | some l =>
      rw [hs] at h
      simp only at h
      have hia : i < leads.length := by
        rcases Nat.lt_or_ge i leads.length with h1 | h1
        · exact h1
        · rw [List.getElem?_eq_none h1] at hs; cases hs
      cases hd : getList l.count l.samples with
      | error e => rw [hd] at h; cases h
      | ok d =>
        rw [hd] at h
        simp only at h
        have hlb : leadInBounds l := getList_defined _ _ d hd
        by_cases hmax : i + 1 ≤ INT_MAX
        · simp only [hmax, if_true] at h
          by_cases hnext : i + 1 < nleads
          · obtain ⟨h1, h2, h3⟩ := ih (i + 1) _ r (by omega) hnext h
            refine ⟨h1, h2, ?_⟩
            intro j l2 hij hj hl2
            rcases Nat.eq_or_lt_of_le hij with heq | hlt
            · subst heq; rw [hs] at hl2; cases hl2; exact hlb
            · exact h3 j l2 (by omega) hj hl2
          · refine ⟨by omega, by omega, ?_⟩
            intro j l2 hij hj hl2
            have : j = i := by omega
            subst this; rw [hs] at hl2; cases hl2; exact hlb
        · simp only [hmax, if_false] at h
          cases h

/-- Closed form of `getData` on inputs inside bounds. -/
theorem getData_run (nleads : Nat) (leads : List lead_t) (hb : inBounds nleads leads) :
    getData nleads leads = Except.ok (PyObject.list ((leads.take nleads).map recordOf)) := by
  have h := getDataLoop_run nleads leads hb nleads 0 (by omega) (by omega)
  have h0 : dataAt nleads leads 0 = PyList_New nleads := by simp [dataAt, PyList_New]
  rw [h0] at h
  simp [getData, h]

/-- If `getData` returns, its input is inside bounds. -/
theorem getData_defined (nleads : Nat) (leads : List lead_t) (d : PyObject)
    (h : getData nleads leads = Except.ok d) : inBounds nleads leads := by
  rcases Nat.eq_zero_or_pos nleads with h0 | hpos
  · subst h0; exact ⟨by omega, by omega, by simp⟩
  · unfold getData at h
    cases hl : getDataLoop nleads leads 0 (PyList_New nleads) with
    | error e => rw [hl] at h; cases h
    | ok r =>
      obtain ⟨h1, h2, h3⟩ := getDataLoop_defined nleads leads nleads 0 _ r (by omega) hpos hl
      refine ⟨h1, h2, ?_⟩
      intro l hmem
      rw [List.mem_iff_getElem?] at hmem
      obtain ⟨j, hj⟩ := hmem
      have hjn : j < nleads := by
        rcases Nat.lt_or_ge j nleads with h4 | h4
        · exact h4
        · rw [List.getElem?_take_eq_none h4] at hj; cases hj
      rw [List.getElem?_take_of_lt hjn] at hj
      exact h3 j l (by omega) hjn hj

/-- Function `getData` returns exactly on the inputs inside bounds, and then returns one record per valid lead. -/
theorem getData_ok_iff (nleads : Nat) (leads : List lead_t) (d : PyObject) :
    getData nleads leads = Except.ok d ↔
      inBounds nleads leads ∧ d = PyObject.list ((leads.take nleads).map recordOf) := by
  constructor
  · intro h
    have hb := getData_defined nleads leads d h
    rw [getData_run nleads leads hb] at h
    cases h
    exact ⟨hb, rfl⟩
  · rintro ⟨hb, rfl⟩
    exact getData_run nleads leads hb

/-- The run of `PySierraECG_getLeads` on a path that does not exist. -/
theorem run_missing (env : Env) (args : List PyObject) (p : String) (σ : PyState)
    (hargs : PyArg_ParseTuple_s args = some p) (hmissing : env.access p = -1) :
    PySierraECG_getLeads env args σ =
      (Outcome.returned (Local.value PyObject.null),
        { err := some (PyErr.Error ("File doesn't exist: " ++ p)),
          trace := σ.trace ++
            [Call.access p, Call.PyErr_SetString ("File doesn't exist: " ++ p)] }) := by
  simp [PySierraECG_getLeads, hargs, checkFile, hmissing, PyErr_SetString, PyState.call, concat]

/-- The run of `PySierraECG_getLeads` when `sierraecg_init` fails. -/
theorem run_init_failure (env : Env) (args : List PyObject) (p : String) (σ : PyState)
    (hargs : PyArg_ParseTuple_s args = some p) (hfile : env.access p ≠ -1)
    (hinit : env.sierraecg_init ≠ 0) :
    PySierraECG_getLeads env args σ =
      (Outcome.aborted,
        { err := σ.err,
          trace := σ.trace ++ [Call.access p, Call.sierraecg_init, Call.abort] }) := by
  simp [PySierraECG_getLeads, hargs, checkFile, hfile, hinit, PyState.call]

/-- The run of `PySierraECG_getLeads` when `sierraecg_read` fails. -/
theorem run_read_failure (env : Env) (args : List PyObject) (p : String) (σ : PyState)
    (hargs : PyArg_ParseTuple_s args = some p) (hfile : env.access p ≠ -1)
    (hinit : env.sierraecg_init = 0) (hread : (env.sierraecg_read p).1 ≠ 0) :
    PySierraECG_getLeads env args σ =
      (Outcome.returned Local.indeterminate,
        { err := some (PyErr.Error ("Errors parsing Sierra ECG file: " ++ p)),
          trace := σ.trace ++ [Call.access p, Call.sierraecg_init, Call.sierraecg_read p,
            Call.PyErr_SetString ("Errors parsing Sierra ECG file: " ++ p),
            Call.sierraecg_cleanup] }) := by
  simp [PySierraECG_getLeads, hargs, checkFile, hfile, hinit, hread, PyErr_SetString,
    PyState.call, concat]

/-- The run of `PySierraECG_getLeads` when the read succeeds and `getData` returns. -/
theorem run_read_success (env : Env) (args : List PyObject) (p : String) (σ : PyState)
    (d : PyObject)
    (hargs : PyArg_ParseTuple_s args = some p) (hfile : env.access p ≠ -1)
    (hinit : env.sierraecg_init = 0) (hread : (env.sierraecg_read p).1 = 0)
    (hdata : getData (env.sierraecg_read p).2.valid (env.sierraecg_read p).2.leads = Except.ok d) :
    PySierraECG_getLeads env args σ =
      (Outcome.returned (Local.value d),
        { err := σ.err,
          trace := σ.trace ++ [Call.access p, Call.sierraecg_init, Call.sierraecg_read p,
            Call.getData, Call.sierraecg_free, Call.sierraecg_cleanup] }) := by
  simp [PySierraECG_getLeads, hargs, checkFile, hfile, hinit, hread, hdata, PyState.call]

/-- The run of `PySierraECG_getLeads` when the read succeeds and `getData` leaves defined behaviour. -/
theorem run_read_undefined (env : Env) (args : List PyObject) (p : String) (σ : PyState)
    (ub : UB)
    (hargs : PyArg_ParseTuple_s args = some p) (hfile : env.access p ≠ -1)
    (hinit : env.sierraecg_init = 0) (hread : (env.sierraecg_read p).1 = 0)
    (hdata : getData (env.sierraecg_read p).2.valid (env.sierraecg_read p).2.leads
      = Except.error ub) :
    PySierraECG_getLeads env args σ =
      (Outcome.undefined ub,
        { err := σ.err,
          trace := σ.trace ++ [Call.access p, Call.sierraecg_init, Call.sierraecg_read p,
            Call.getData] }) := by
  simp [PySierraECG_getLeads, hargs, checkFile, hfile, hinit, hread, hdata, PyState.call]

/-- The `getList` loop reads the first `length` samples only. -/
theorem getListLoop_congr (length : Nat) (a1 a2 : List Int)
    (h : a1.take length = a2.take length) :
    ∀ (k i : Nat) (list : List PyObject), length - i = k →
      getListLoop length a1 i list = getListLoop length a2 i list := by
  intro k
  induction k with
  | zero =>
    intro i list hk
    have hge : ¬ i < length := by omega
    rw [getListLoop]
    conv_rhs => rw [getListLoop]
    simp only [hge, if_false]
  | succ k ih =>
    intro i list hk
    have hlt : i < length := by omega
    have heq : a1[i]? = a2[i]? := by
      rw [← List.getElem?_take_of_lt hlt, h, List.getElem?_take_of_lt hlt]
    rw [getListLoop]
    conv_rhs => rw [getListLoop]
    simp only [hlt, if_true]
    rw [heq]
    cases a2[i]? with
    | none => rfl
    | some s =>
      simp only
      by_cases hmax : i + 1 ≤ INT_MAX
      · simp only [hmax, if_true]
        exact ih (i + 1) _ (by omega)
      · simp only [hmax, if_false]

/-- Function `getList` reads the first `length` samples only. -/
theorem getList_congr (length : Nat) (a1 a2 : List Int)
    (h : a1.take length = a2.take length) : getList length a1 = getList length a2 := by
  unfold getList
  rw [getListLoop_congr length a1 a2 h length 0 _ (by omega)]

/-- The `getData` loop reads the views of the first `nleads` leads only. -/
theorem getDataLoop_congr (nleads : Nat) (l1 l2 : List lead_t)
    (h : (l1.take nleads).map leadView = (l2.take nleads).map leadView) :
    ∀ (k i : Nat) (result : List PyObject), nleads - i = k →
      getDataLoop nleads l1 i result = getDataLoop nleads l2 i result := by
  intro k
  induction k with
  | zero =>
    intro i result hk
    have hge : ¬ i < nleads := by omega
    rw [getDataLoop]
    conv_rhs => rw [getDataLoop]
    simp only [hge, if_false]
  | succ k ih =>
    intro i result hk
    have hlt : i < nleads := by omega
    have heq : Option.map leadView l1[i]? = Option.map leadView l2[i]? := by
      have := congrArg (fun l => l[i]?) h
      simpa [List.getElem?_take_of_lt hlt] using this
    rw [getDataLoop]
    conv_rhs => rw [getDataLoop]
    simp only [hlt, if_true]
    cases hx : l1[i]? with
    | none =>
      cases hy : l2[i]? with
      | none => rfl
      | some b => rw [hx, hy] at heq; cases heq
    | some a =>
      cases hy : l2[i]? with
      | none => rw [hx, hy] at heq; cases heq
      | some b =>
        rw [hx, hy] at heq
        simp only [Option.map_some', Option.some.injEq, leadView, Prod.mk.injEq] at heq
        obtain ⟨hname, hcount, hdur, hsamples⟩ := heq
        simp only
        rw [hcount] at hsamples
        rw [hcount, getList_congr b.count a.samples b.samples hsamples, hname, hdur]
        cases getList b.count b.samples with
        | error e => rfl
        | ok d =>
          simp only
          by_cases hmax : i + 1 ≤ INT_MAX
          · simp only [hmax, if_true]
            exact ih (i + 1) _ (by omega)
          · simp only [hmax, if_false]

/-- A `size_t` that fits a C `int` is read back unchanged under the format code `i`. -/
theorem BuildValue_i_of_le (n : Nat) (h : n ≤ INT_MAX) : BuildValue_i n = (n : Int) := by
  unfold BuildValue_i
  unfold INT_MAX at h
  split_ifs <;> omega

/-- The calls made are what the run appends to the trace. -/
theorem callsMade_eq (env : Env) (args : List PyObject) (σ τ : PyState) (o : Outcome)
    (calls : List Call)
    (h : PySierraECG_getLeads env args σ = (o, τ)) (ht : τ.trace = σ.trace ++ calls) :
    callsMade env args σ = calls := by
  simp [callsMade, h, ht]

/-- After a successful read, a call that returns ran the transcoder inside bounds and made the six calls of the success path. -/
theorem returned_of_read_success (env : Env) (args : List PyObject) (p : String) (σ : PyState)
    (r : Local PyObject)
    (hargs : PyArg_ParseTuple_s args = some p) (hfile : env.access p ≠ -1)
    (hinit : env.sierraecg_init = 0) (hread : (env.sierraecg_read p).1 = 0)
    (hret : (PySierraECG_getLeads env args σ).1 = Outcome.returned r) :
    inBounds (env.sierraecg_read p).2.valid (env.sierraecg_read p).2.leads ∧
    r = Local.value (PyObject.list
      (((env.sierraecg_read p).2.leads.take (env.sierraecg_read p).2.valid).map recordOf)) ∧
    callsMade env args σ = [Call.access p, Call.sierraecg_init, Call.sierraecg_read p,
      Call.getData, Call.sierraecg_free, Call.sierraecg_cleanup] := by
  cases hd : getData (env.sierraecg_read p).2.valid (env.sierraecg_read p).2.leads with
  | error ub =>
    rw [run_read_undefined env args p σ ub hargs hfile hinit hread hd] at hret
    cases hret
  | ok d =>
    have h := run_read_success env args p σ d hargs hfile hinit hread hd
    have hc := callsMade_eq env args σ _ _ _ h rfl
    rw [h] at hret
    obtain ⟨hb, hdv⟩ := (getData_ok_iff _ _ d).1 hd
    cases hret
    exact ⟨hb, by rw [hdv], hc⟩

/-- After a successful read of a native result inside bounds the call returns the transcoded list. -/
theorem returns_of_inBounds (env : Env) (args : List PyObject) (p : String) (σ : PyState)
    (hargs : PyArg_ParseTuple_s args = some p) (hfile : env.access p ≠ -1)
    (hinit : env.sierraecg_init = 0) (hread : (env.sierraecg_read p).1 = 0)
    (hb : inBounds (env.sierraecg_read p).2.valid (env.sierraecg_read p).2.leads) :
    (PySierraECG_getLeads env args σ).1 = Outcome.returned (Local.value (PyObject.list
      (((env.sierraecg_read p).2.leads.take (env.sierraecg_read p).2.valid).map recordOf))) := by
  rw [run_read_success env args p σ _ hargs hfile hinit hread (getData_run _ _ hb)]

/-- Entry `nsamples` of a record. -/
theorem recordOf_nsamples (l : lead_t) :
    (recordOf l).getItem "nsamples" = some (PyObject.long (BuildValue_i l.count)) := by
  simp [recordOf, Py_BuildValue, PyObject.getItem, List.find?]

/-- Entry `duration` of a record. -/
theorem recordOf_duration (l : lead_t) :
    (recordOf l).getItem "duration" = some (PyObject.long (BuildValue_i l.duration)) := by
  simp [recordOf, Py_BuildValue, PyObject.getItem, List.find?]

/-- Entry `name` of a record. -/
theorem recordOf_name (l : lead_t) :
    (recordOf l).getItem "name" = some (PyObject.unicode l.name) := by
  simp [recordOf, Py_BuildValue, PyObject.getItem, List.find?]

/-- Entry `data` of a record. -/
theorem recordOf_data (l : lead_t) :
    (recordOf l).getItem "data"
      = some (PyObject.list ((l.samples.take l.count).map PyFloat_FromDouble)) := by
  simp [recordOf, Py_BuildValue, PyObject.getItem, List.find?]

/-! ## Properties of `get_leads` and of the transcoder -/

/-- C1: for a path that does not exist, `get_leads` returns `NULL` with the module
error `"File doesn't exist: " ++ p` pending, and calls no operation of the library. -/
theorem C1_missing_file_raises (env : Env) (args : List PyObject) (p : String) (σ : PyState)
    (hargs : PyArg_ParseTuple_s args = some p) (hmissing : env.access p = -1) :
    (PySierraECG_getLeads env args σ).1 = Outcome.returned (Local.value PyObject.null) ∧
    (PySierraECG_getLeads env args σ).2.err
      = some (PyErr.Error ("File doesn't exist: " ++ p)) ∧
    callsMade env args σ
      = [Call.access p, Call.PyErr_SetString ("File doesn't exist: " ++ p)] ∧
    libraryCalls (callsMade env args σ) = [] := by
  have h := run_missing env args p σ hargs hmissing
  have hc := callsMade_eq env args σ _ _ _ h rfl
  rw [hc, h]
  simp [libraryCalls, Call.isLibrary]

/-- The missing-file statement at `missing.xml` in a world without files. -/
theorem C1_missing_file_raises_witness :
    PyArg_ParseTuple_s [PyObject.unicode "missing.xml"] = some "missing.xml" ∧
    missingEnv.access "missing.xml" = -1 ∧
    (PySierraECG_getLeads missingEnv [PyObject.unicode "missing.xml"] idle).1
      = Outcome.returned (Local.value PyObject.null) ∧
    (PySierraECG_getLeads missingEnv [PyObject.unicode "missing.xml"] idle).2.err
      = some (PyErr.Error ("File doesn't exist: " ++ "missing.xml")) ∧
    callsMade missingEnv [PyObject.unicode "missing.xml"] idle
      = [Call.access "missing.xml",
          Call.PyErr_SetString ("File doesn't exist: " ++ "missing.xml")] ∧
    libraryCalls (callsMade missingEnv [PyObject.unicode "missing.xml"] idle) = [] :=
  ⟨by decide, by decide,
    C1_missing_file_raises missingEnv [PyObject.unicode "missing.xml"] "missing.xml" idle
      (by decide) (by decide)⟩

/-- C8: when the file exists and `sierraecg_init` reports failure, the call ends
in `abort()`: nothing is returned, no exception is set by the call, and `init` is
the only library operation invoked. -/
theorem C8_init_failure_aborts (env : Env) (args : List PyObject) (p : String) (σ : PyState)
    (hargs : PyArg_ParseTuple_s args = some p) (hfile : env.access p ≠ -1)
    (hinit : env.sierraecg_init ≠ 0) :
    (PySierraECG_getLeads env args σ).1 = Outcome.aborted ∧
    (PySierraECG_getLeads env args σ).2.err = σ.err ∧
    callsMade env args σ = [Call.access p, Call.sierraecg_init, Call.abort] ∧
    libraryCalls (callsMade env args σ) = [Call.sierraecg_init] := by
  have h := run_init_failure env args p σ hargs hfile hinit
  have hc := callsMade_eq env args σ _ _ _ h rfl
  rw [hc, h]
  simp [libraryCalls, Call.isLibrary]

/-- The abort statement at `sample.xml` in a world where initialisation fails. -/
theorem C8_init_failure_aborts_witness :
    PyArg_ParseTuple_s [PyObject.unicode "sample.xml"] = some "sample.xml" ∧
    initFailEnv.access "sample.xml" ≠ -1 ∧
    initFailEnv.sierraecg_init ≠ 0 ∧
    (PySierraECG_getLeads initFailEnv [PyObject.unicode "sample.xml"] idle).1 = Outcome.aborted ∧
    (PySierraECG_getLeads initFailEnv [PyObject.unicode "sample.xml"] idle).2.err = idle.err ∧
    callsMade initFailEnv [PyObject.unicode "sample.xml"] idle
      = [Call.access "sample.xml", Call.sierraecg_init, Call.abort] ∧
    libraryCalls (callsMade initFailEnv [PyObject.unicode "sample.xml"] idle)
      = [Call.sierraecg_init] :=
  ⟨by decide, by decide, by decide,
    C8_init_failure_aborts initFailEnv [PyObject.unicode "sample.xml"] "sample.xml" idle
      (by decide) (by decide) (by decide)⟩

/-- C2: at an existing file whose read fails, the call sets the module error
`"Errors parsing Sierra ECG file: " ++ path`, skips the transcoder, and returns the
local `ECG`, which was never assigned: the returned pointer is indeterminate, it
is not `NULL`. -/
theorem C2_read_failure_returns_unassigned_ECG :
    PySierraECG_getLeads readFailEnv [PyObject.unicode "bad.xml"] idle =
      (Outcome.returned Local.indeterminate,
        { err := some (PyErr.Error "Errors parsing Sierra ECG file: bad.xml"),
          trace := [Call.access "bad.xml", Call.sierraecg_init, Call.sierraecg_read "bad.xml",
            Call.PyErr_SetString "Errors parsing Sierra ECG file: bad.xml",
            Call.sierraecg_cleanup] }) ∧
    (PySierraECG_getLeads readFailEnv [PyObject.unicode "bad.xml"] idle).1
      ≠ Outcome.returned (Local.value PyObject.null) := by
  have h := run_read_failure readFailEnv [PyObject.unicode "bad.xml"] "bad.xml" idle
    (by decide) (by decide) (by decide) (by decide)
  rw [h]
  refine ⟨by simp [idle], ?_⟩
  intro hne
  cases hne

/-- C3: when the file exists, the library initialises and the read succeeds,
every call of `get_leads` that returns, returns a list of exactly `ecg.valid`
records (so of `MAX_LEADS` records only when `ecg.valid = MAX_LEADS`), and in each
record the length of `data` is the value of `nsamples`; and the call does return
whenever the native result keeps every read inside its arrays and its counts inside
a C `int`. -/
theorem C3_one_record_per_valid_lead (env : Env) (args : List PyObject) (p : String)
    (σ : PyState)
    (hargs : PyArg_ParseTuple_s args = some p) (hfile : env.access p ≠ -1)
    (hinit : env.sierraecg_init = 0) (hread : (env.sierraecg_read p).1 = 0) :
    (∀ r : Local PyObject, (PySierraECG_getLeads env args σ).1 = Outcome.returned r →
      ∃ records : List PyObject, r = Local.value (PyObject.list records) ∧
        records.length = (env.sierraecg_read p).2.valid ∧
        (records.length = MAX_LEADS → (env.sierraecg_read p).2.valid = MAX_LEADS) ∧
        ∀ record ∈ records, ∃ (items : List PyObject) (n : Int),
          record.getItem "data" = some (PyObject.list items) ∧
          record.getItem "nsamples" = some (PyObject.long n) ∧
          (items.length : Int) = n) ∧
    (inBounds (env.sierraecg_read p).2.valid (env.sierraecg_read p).2.leads →
      ∃ r : Local PyObject, (PySierraECG_getLeads env args σ).1 = Outcome.returned r) := by
  refine ⟨?_, fun hb => ⟨_, returns_of_inBounds env args p σ hargs hfile hinit hread hb⟩⟩
  intro r hret
  obtain ⟨hb, hr, _⟩ := returned_of_read_success env args p σ r hargs hfile hinit hread hret
  obtain ⟨hlen, _, hleads⟩ := hb
  have hl : (List.map recordOf (List.take (env.sierraecg_read p).2.valid
      (env.sierraecg_read p).2.leads)).length = (env.sierraecg_read p).2.valid := by
    rw [List.length_map, List.length_take]; omega
  refine ⟨_, hr, hl, fun h => by rw [← h, hl], ?_⟩
  intro record hmem
  rw [List.mem_map] at hmem
  obtain ⟨l, hl2, rfl⟩ := hmem
  obtain ⟨h1, h2⟩ := hleads l hl2
  refine ⟨_, _, recordOf_data l, recordOf_nsamples l, ?_⟩
  rw [BuildValue_i_of_le _ h2, List.length_map, List.length_take]
  congr 1
  omega

/-- The record-count statement at `sample.xml`, a recording of two valid leads. -/
theorem C3_one_record_per_valid_lead_witness :
    PyArg_ParseTuple_s [PyObject.unicode "sample.xml"] = some "sample.xml" ∧
    sampleEnv.access "sample.xml" ≠ -1 ∧
    sampleEnv.sierraecg_init = 0 ∧
    (sampleEnv.sierraecg_read "sample.xml").1 = 0 ∧
    inBounds (sampleEnv.sierraecg_read "sample.xml").2.valid
      (sampleEnv.sierraecg_read "sample.xml").2.leads ∧
    ((∀ r : Local PyObject,
      (PySierraECG_getLeads sampleEnv [PyObject.unicode "sample.xml"] idle).1
        = Outcome.returned r →
      ∃ records : List PyObject, r = Local.value (PyObject.list records) ∧
        records.length = (sampleEnv.sierraecg_read "sample.xml").2.valid ∧
        (records.length = MAX_LEADS →
          (sampleEnv.sierraecg_read "sample.xml").2.valid = MAX_LEADS) ∧
        ∀ record ∈ records, ∃ (items : List PyObject) (n : Int),
          record.getItem "data" = some (PyObject.list items) ∧
          record.getItem "nsamples" = some (PyObject.long n) ∧
          (items.length : Int) = n) ∧
    (inBounds (sampleEnv.sierraecg_read "sample.xml").2.valid
        (sampleEnv.sierraecg_read "sample.xml").2.leads →
      ∃ r : Local PyObject,
        (PySierraECG_getLeads sampleEnv [PyObject.unicode "sample.xml"] idle).1
          = Outcome.returned r)) :=
  ⟨by decide, by decide, by decide, by decide, by decide,
    C3_one_record_per_valid_lead sampleEnv [PyObject.unicode "sample.xml"] "sample.xml" idle
      (by decide) (by decide) (by decide) (by decide)⟩

/-- C6: whenever `getData` returns, record `i` of its result is built from lead `i`
of the native result, and element `j` of its `data` list is the float holding
exactly the raw sample `samples[j]`, for every `j < count`: same order, no
scaling. `getData` does return on every native result that keeps the reads inside
the arrays and the counts inside a C `int`. -/
theorem C6_samples_widened_exactly (nleads : Nat) (leads : List lead_t) :
    (∀ d : PyObject, getData nleads leads = Except.ok d →
      ∃ records : List PyObject, d = PyObject.list records ∧ records.length = nleads ∧
        ∀ (i : Nat) (l : lead_t), i < nleads → leads[i]? = some l →
          ∃ (record : PyObject) (items : List PyObject), records[i]? = some record ∧
            record.getItem "data" = some (PyObject.list items) ∧
            ∀ (j : Nat) (s : Int), j < l.count → l.samples[j]? = some s →
              items[j]? = some (PyObject.float (s : Rat))) ∧
    (inBounds nleads leads → ∃ d : PyObject, getData nleads leads = Except.ok d) := by
  refine ⟨?_, fun hb => ⟨_, getData_run nleads leads hb⟩⟩
  intro d hd
  obtain ⟨hb, hdv⟩ := (getData_ok_iff _ _ d).1 hd
  obtain ⟨hlen, _, _⟩ := hb
  refine ⟨_, hdv, by rw [List.length_map, List.length_take]; omega, ?_⟩
  intro i l hi hl
  refine ⟨recordOf l, _, ?_, recordOf_data l, ?_⟩
  · rw [List.getElem?_map, List.getElem?_take_of_lt hi, hl]; rfl
  · intro j s hj hs
    rw [List.getElem?_map, List.getElem?_take_of_lt hj, hs]; rfl

/-- The sample-value statement at the two valid leads of `sampleEcg`. -/
theorem C6_samples_widened_exactly_witness :
    inBounds 2 sampleEcg.leads ∧
    ((∀ d : PyObject, getData 2 sampleEcg.leads = Except.ok d →
      ∃ records : List PyObject, d = PyObject.list records ∧ records.length = 2 ∧
        ∀ (i : Nat) (l : lead_t), i < 2 → sampleEcg.leads[i]? = some l →
          ∃ (record : PyObject) (items : List PyObject), records[i]? = some record ∧
            record.getItem "data" = some (PyObject.list items) ∧
            ∀ (j : Nat) (s : Int), j < l.count → l.samples[j]? = some s →
              items[j]? = some (PyObject.float (s : Rat))) ∧
    (inBounds 2 sampleEcg.leads → ∃ d : PyObject, getData 2 sampleEcg.leads = Except.ok d)) :=
  ⟨by decide, C6_samples_widened_exactly 2 sampleEcg.leads⟩

/-- C7: at a lead whose duration is `2^31` milliseconds, `getData` returns a record
whose `duration` is `-2^31`: the `size_t` field is read back as a C `int`. The
name and the sample count of that record are the native ones. -/
theorem C7_duration_read_as_int :
    ∃ record : PyObject,
      getData longEcg.valid longEcg.leads = Except.ok (PyObject.list [record]) ∧
      record.getItem "name" = some (PyObject.unicode "I") ∧
      record.getItem "nsamples" = some (PyObject.long 1) ∧
      record.getItem "duration" = some (PyObject.long (-2147483648)) ∧
      record.getItem "duration" ≠ some (PyObject.long 2147483648) := by
  refine ⟨recordOf { name := "I", samples := [1], count := 1, duration := 2147483648 },
    ?_, ?_, ?_, ?_, ?_⟩
  · rw [getData_run _ _ (by decide)]
    simp [longEcg]
  · rw [recordOf_name]
  · rw [recordOf_nsamples]; simp [BuildValue_i]
  · rw [recordOf_duration]; simp [BuildValue_i]
  · rw [recordOf_duration]; simp [BuildValue_i]

/-- C9: two lead arrays that agree, on their first `n` entries, in name, count,
duration and the first `count` samples, give the same outcome of `getData n`,
whatever the later entries and the later samples hold. -/
theorem C9_transcoder_reads_valid_part_only (n : Nat) (leads1 leads2 : List lead_t)
    (h : (leads1.take n).map leadView = (leads2.take n).map leadView) :
    getData n leads1 = getData n leads2 := by
  unfold getData
  rw [getDataLoop_congr n leads1 leads2 h n 0 _ (by omega)]

/-- Two different lead arrays with the same valid part give the same result. -/
theorem C9_transcoder_reads_valid_part_only_witness :
    (sampleEcg.leads.take 2).map leadView = (sampleEcgOther.leads.take 2).map leadView ∧
    sampleEcg.leads ≠ sampleEcgOther.leads ∧
    getData 2 sampleEcg.leads = getData 2 sampleEcgOther.leads :=
  ⟨by decide, by decide,
    C9_transcoder_reads_valid_part_only 2 sampleEcg.leads sampleEcgOther.leads (by decide)⟩

/-- C10: when `ecg.leads` has its sixteen entries, `ecg.valid` is at most sixteen
and every valid lead has `count` at most the length of its sample array and at
most `INT_MAX`, the loop of `getData` ends without an out-of-bounds read or a
counter overflow with its counter at `ecg.valid`, and for every valid lead the loop
of `getList` ends likewise with its counter at `count`. -/
theorem C10_loops_stay_in_bounds (ecg : ecg_t)
    (hcap : ecg.leads.length = MAX_LEADS) (hvalid : ecg.valid ≤ MAX_LEADS)
    (hcounts : ∀ l ∈ ecg.leads.take ecg.valid, l.count ≤ l.samples.length ∧ l.count ≤ INT_MAX) :
    (∃ result : List PyObject,
      getDataLoop ecg.valid ecg.leads 0 (PyList_New ecg.valid) = Except.ok (result, ecg.valid)) ∧
    (∀ l ∈ ecg.leads.take ecg.valid, ∃ list : List PyObject,
      getListLoop l.count l.samples 0 (PyList_New l.count) = Except.ok (list, l.count)) := by
  have hb : inBounds ecg.valid ecg.leads :=
    ⟨by omega, by unfold MAX_LEADS at hvalid; unfold INT_MAX; omega, hcounts⟩
  constructor
  · have h := getDataLoop_run ecg.valid ecg.leads hb ecg.valid 0 (by omega) (by omega)
    have h0 : dataAt ecg.valid ecg.leads 0 = PyList_New ecg.valid := by simp [dataAt, PyList_New]
    rw [h0] at h
    exact ⟨_, h⟩
  · intro l hl
    obtain ⟨h1, h2⟩ := hcounts l hl
    have h := getListLoop_run l.count l.samples h1 h2 l.count 0 (by omega) (by omega)
    have h0 : listAt l.count l.samples 0 = PyList_New l.count := by simp [listAt, PyList_New]
    rw [h0] at h
    exact ⟨_, h⟩

/-- The loop statement at `sampleEcg`. -/
theorem C10_loops_stay_in_bounds_witness :
    sampleEcg.leads.length = MAX_LEADS ∧ sampleEcg.valid ≤ MAX_LEADS ∧
    (∀ l ∈ sampleEcg.leads.take sampleEcg.valid,
      l.count ≤ l.samples.length ∧ l.count ≤ INT_MAX) ∧
    ((∃ result : List PyObject,
      getDataLoop sampleEcg.valid sampleEcg.leads 0 (PyList_New sampleEcg.valid)
        = Except.ok (result, sampleEcg.valid)) ∧
    (∀ l ∈ sampleEcg.leads.take sampleEcg.valid, ∃ list : List PyObject,
      getListLoop l.count l.samples 0 (PyList_New l.count) = Except.ok (list, l.count))) :=
  ⟨by decide, by decide, by decide,
    C10_loops_stay_in_bounds sampleEcg (by decide) (by decide) (by decide)⟩

/-- C4: when the file exists and the library initialises, every call that returns
has invoked, of the library, `init`, then `read` once, then `free` if the read
succeeded, then `cleanup`: `cleanup` is invoked exactly once and is the last call
made. The call does return when the read fails, and when it succeeds with a native
result that keeps the transcoder inside its arrays. -/
theorem C4_cleanup_once_and_last (env : Env) (args : List PyObject) (p : String) (σ : PyState)
    (hargs : PyArg_ParseTuple_s args = some p) (hfile : env.access p ≠ -1)
    (hinit : env.sierraecg_init = 0) :
    (∀ r : Local PyObject, (PySierraECG_getLeads env args σ).1 = Outcome.returned r →
      libraryCalls (callsMade env args σ)
        = [Call.sierraecg_init, Call.sierraecg_read p]
          ++ (if (env.sierraecg_read p).1 = 0 then [Call.sierraecg_free] else [])
          ++ [Call.sierraecg_cleanup] ∧
      (callsMade env args σ).count Call.sierraecg_cleanup = 1 ∧
      (callsMade env args σ).getLast? = some Call.sierraecg_cleanup ∧
      (callsMade env args σ).count (Call.sierraecg_read p) = 1) ∧
    (((env.sierraecg_read p).1 ≠ 0 ∨
        inBounds (env.sierraecg_read p).2.valid (env.sierraecg_read p).2.leads) →
      ∃ r : Local PyObject, (PySierraECG_getLeads env args σ).1 = Outcome.returned r) := by
  by_cases hread : (env.sierraecg_read p).1 = 0
  · refine ⟨?_, fun _hb => ?_⟩
    · intro r hret
      obtain ⟨_, _, hc⟩ := returned_of_read_success env args p σ r hargs hfile hinit hread hret
      rw [hc]
      simp [libraryCalls, Call.isLibrary, hread]
    · rcases _hb with hb | hb
      · exact absurd hread hb
      · exact ⟨_, returns_of_inBounds env args p σ hargs hfile hinit hread hb⟩
  · have h := run_read_failure env args p σ hargs hfile hinit hread
    have hc := callsMade_eq env args σ _ _ _ h rfl
    refine ⟨fun r _ => ?_, fun _ => ⟨_, by rw [h]⟩⟩
    rw [hc]
    simp [libraryCalls, Call.isLibrary, hread]

/-- The cleanup statement at `bad.xml`, a file whose read fails. -/
theorem C4_cleanup_once_and_last_witness :
    PyArg_ParseTuple_s [PyObject.unicode "bad.xml"] = some "bad.xml" ∧
    readFailEnv.access "bad.xml" ≠ -1 ∧
    readFailEnv.sierraecg_init = 0 ∧
    (readFailEnv.sierraecg_read "bad.xml").1 ≠ 0 ∧
    ((∀ r : Local PyObject,
      (PySierraECG_getLeads readFailEnv [PyObject.unicode "bad.xml"] idle).1
        = Outcome.returned r →
      libraryCalls (callsMade readFailEnv [PyObject.unicode "bad.xml"] idle)
        = [Call.sierraecg_init, Call.sierraecg_read "bad.xml"]
          ++ (if (readFailEnv.sierraecg_read "bad.xml").1 = 0 then [Call.sierraecg_free] else [])
          ++ [Call.sierraecg_cleanup] ∧
      (callsMade readFailEnv [PyObject.unicode "bad.xml"] idle).count Call.sierraecg_cleanup = 1 ∧
      (callsMade readFailEnv [PyObject.unicode "bad.xml"] idle).getLast?
        = some Call.sierraecg_cleanup ∧
      (callsMade readFailEnv [PyObject.unicode "bad.xml"] idle).count
        (Call.sierraecg_read "bad.xml") = 1) ∧
    (((readFailEnv.sierraecg_read "bad.xml").1 ≠ 0 ∨
        inBounds (readFailEnv.sierraecg_read "bad.xml").2.valid
          (readFailEnv.sierraecg_read "bad.xml").2.leads) →
      ∃ r : Local PyObject,
        (PySierraECG_getLeads readFailEnv [PyObject.unicode "bad.xml"] idle).1
          = Outcome.returned r)) :=
  ⟨by decide, by decide, by decide, by decide,
    C4_cleanup_once_and_last readFailEnv [PyObject.unicode "bad.xml"] "bad.xml" idle
      (by decide) (by decide) (by decide)⟩

/-- C5: when the file exists and the library initialises, a call whose read fails
returns without invoking `free`; a call whose read succeeds and that returns has
made exactly the calls `access`, `init`, `read`, `getData`, `free`, `cleanup` in this
order, so `free` is invoked once, after the transcoder and before `cleanup`. The
call does return when the native result keeps the transcoder inside its arrays. -/
theorem C5_free_once_after_transcoding (env : Env) (args : List PyObject) (p : String)
    (σ : PyState)
    (hargs : PyArg_ParseTuple_s args = some p) (hfile : env.access p ≠ -1)
    (hinit : env.sierraecg_init = 0) :
    ((env.sierraecg_read p).1 ≠ 0 →
      (∃ r : Local PyObject, (PySierraECG_getLeads env args σ).1 = Outcome.returned r) ∧
      (callsMade env args σ).count Call.sierraecg_free = 0) ∧
    ((env.sierraecg_read p).1 = 0 →
      (∀ r : Local PyObject, (PySierraECG_getLeads env args σ).1 = Outcome.returned r →
        callsMade env args σ = [Call.access p, Call.sierraecg_init, Call.sierraecg_read p,
          Call.getData, Call.sierraecg_free, Call.sierraecg_cleanup] ∧
        (callsMade env args σ).count Call.sierraecg_free = 1) ∧
      (inBounds (env.sierraecg_read p).2.valid (env.sierraecg_read p).2.leads →
        ∃ r : Local PyObject, (PySierraECG_getLeads env args σ).1 = Outcome.returned r)) := by
  constructor
  · intro hread
    have h := run_read_failure env args p σ hargs hfile hinit hread
    have hc := callsMade_eq env args σ _ _ _ h rfl
    refine ⟨⟨_, by rw [h]⟩, ?_⟩
    rw [hc]
    simp
  · intro hread
    refine ⟨?_, fun hb => ⟨_, returns_of_inBounds env args p σ hargs hfile hinit hread hb⟩⟩
    intro r hret
    obtain ⟨_, _, hc⟩ := returned_of_read_success env args p σ r hargs hfile hinit hread hret
    rw [hc]
    simp

/-- The free statement at `sample.xml`, a file whose read succeeds. -/
theorem C5_free_once_after_transcoding_witness :
    PyArg_ParseTuple_s [PyObject.unicode "sample.xml"] = some "sample.xml" ∧
    sampleEnv.access "sample.xml" ≠ -1 ∧
    sampleEnv.sierraecg_init = 0 ∧
    (sampleEnv.sierraecg_read "sample.xml").1 = 0 ∧
    inBounds (sampleEnv.sierraecg_read "sample.xml").2.valid
      (sampleEnv.sierraecg_read "sample.xml").2.leads ∧
    (((sampleEnv.sierraecg_read "sample.xml").1 ≠ 0 →
      (∃ r : Local PyObject,
        (PySierraECG_getLeads sampleEnv [PyObject.unicode "sample.xml"] idle).1
          = Outcome.returned r) ∧
      (callsMade sampleEnv [PyObject.unicode "sample.xml"] idle).count Call.sierraecg_free = 0) ∧
    ((sampleEnv.sierraecg_read "sample.xml").1 = 0 →
      (∀ r : Local PyObject,
        (PySierraECG_getLeads sampleEnv [PyObject.unicode "sample.xml"] idle).1
          = Outcome.returned r →
        callsMade sampleEnv [PyObject.unicode "sample.xml"] idle
          = [Call.access "sample.xml", Call.sierraecg_init, Call.sierraecg_read "sample.xml",
            Call.getData, Call.sierraecg_free, Call.sierraecg_cleanup] ∧
        (callsMade sampleEnv [PyObject.unicode "sample.xml"] idle).count
          Call.sierraecg_free = 1) ∧
      (inBounds (sampleEnv.sierraecg_read "sample.xml").2.valid
          (sampleEnv.sierraecg_read "sample.xml").2.leads →
        ∃ r : Local PyObject,
          (PySierraECG_getLeads sampleEnv [PyObject.unicode "sample.xml"] idle).1
            = Outcome.returned r))) :=
  ⟨by decide, by decide, by decide, by decide, by decide,
    C5_free_once_after_transcoding sampleEnv [PyObject.unicode "sample.xml"] "sample.xml" idle
      (by decide) (by decide) (by decide)⟩

end PySierraECG
